import Mathlib

/- Shallow embedding of the inventory routing problem (IRP) model builder
   found in src/inventory_routing_problem.ipynb.  The notebook builds a
   mixed integer linear program with pulp; we embed the built model as
   predicates over real-valued assignments of the decision variables. -/

namespace IRP

/-- Number of nodes: node 0 is the depot, nodes 1..11 are customers. -/
def V : ℕ := 12

/-- Number of vehicles. -/
def K : ℕ := 7

/-- Number of periods. -/
def T : ℕ := 4

/-- Shelf life in periods. -/
def m : ℕ := 2

/-- Demand mean table from the notebook: one row per node, columns 0..T,
column 0 unused (kept for index parity with the 1-based period convention). -/
def d_mu_table : List (List ℕ) :=
  [ [0,0,0,0,0],
    [0,900,400,1000,600],
    [0,1400,1200,17,1200],
    [0,500,500,1250,600],
    [0,1100,2500,500,400],
    [0,1050,900,1500,1100],
    [0,1200,500,400,1400],
    [0,800,700,500,500],
    [0,1900,400,300,1300],
    [0,800,400,700,1300],
    [0,1100,1600,400,300],
    [0,2600,3200,2500,3200] ]

noncomputable section

/-- Mean demand of customer i in period s, read from the table (0 outside). -/
def d_mu : ℕ → ℕ → ℝ := fun i s => (((d_mu_table.getD i []).getD s 0 : ℕ) : ℝ)

/-- Distance matrix from the notebook (12 by 12, asymmetric). -/
def a_table : List (List ℝ) :=
  [ [0,67,89.2,126,78.1,70.6,106,66.3,64.4,156,151,35.5],
    [73.2,0,154,191,143,144,141,101,74.3,166,176,61.5],
    [70.8,136,0,65.9,62.9,113,158,118,126,218,212,97.2],
    [126,192,69.5,0,98.9,171,233,193,182,274,268,153],
    [78.4,144,63.2,99.7,0,123,185,145,134,226,220,105],
    [70.9,144,105,163,115,0,50.2,58.4,120,155,220,105],
    [106,131,161,222,175,50.9,0,41.6,75.3,105,199,84.4],
    [66.5,91.2,121,182,135,58.2,40.1,0,35.3,117,159,44.4],
    [67.4,74.9,149,185,137,92.7,74.4,34.5,0,92.1,120,34.8],
    [158,166,239,276,228,155,106,116,92.4,0,69.6,126],
    [150,176,232,268,220,221,192,152,119,70,0,119],
    [35,60.3,116,153,105,106,83.6,43.7,30.6,123,118,0] ]

/-- Distance from node i to node j. -/
def a : ℕ → ℕ → ℝ := fun i j => (a_table.getD i []).getD j 0

/-- Fuel to air mass ratio. -/
def xi : ℝ := 1

/-- Heating value of the fuel. -/
def kappa : ℝ := 44

/-- Unit conversion factor. -/
def psi : ℝ := 737

/-- Engine friction rate. -/
def k_e : ℝ := 0.2

/-- Engine speed. -/
def N_e : ℝ := 33

/-- Engine displacement. -/
def V_e : ℝ := 5

/-- Air density. -/
def rho : ℝ := 1.2041

/-- Frontal surface area. -/
def A_e : ℝ := 3.912

/-- Curb weight. -/
def mu : ℝ := 6350

/-- Gravitational acceleration. -/
def g : ℝ := 9.81

/-- Road angle. -/
def phi : ℝ := 0

/-- Aerodynamic drag coefficient. -/
def C_d : ℝ := 0.7

/-- Rolling resistance coefficient. -/
def C_r : ℝ := 0.01

/-- Drivetrain efficiency. -/
def epsilon : ℝ := 0.4

/-- Engine efficiency parameter. -/
def varpi : ℝ := 0.9

/-- Fuel cost per liter. -/
def l : ℝ := 1.7

/-- Driver wage per second. -/
def r : ℝ := 0.003

/-- Derived coefficient lambda, as computed in the notebook. -/
def lambda_ : ℝ := xi / (kappa * psi)

/-- Derived engine friction energy term. -/
def y : ℝ := k_e * N_e * V_e

/-- Derived drivetrain efficiency factor. -/
def gamma : ℝ := 1 / (1000 * epsilon * varpi)

/-- Derived aerodynamic drag factor. -/
def beta : ℝ := 0.5 * C_d * A_e * rho

/-- Derived road grade and rolling resistance factor. -/
def s_ : ℝ := g * Real.sin phi + g * C_r * Real.cos phi

/-- Vehicle capacity in kilograms. -/
def c : ℝ := 10000

/-- Vehicle speed. -/
def f : ℝ := 80

/-- Demand uncertainty coefficient used in constraint 21. -/
def C : ℝ := 0.1

/-- Target service level. -/
def alpha : ℝ := 0.95

/-- Inventory holding cost. -/
def h : ℝ := 0.06

/-- Spoilage cost. -/
def p : ℝ := 0.6

/-- Modelled from the external library scipy: the cumulative distribution
function of the standard normal distribution, via the Mathlib Gaussian
measure with mean 0 and variance 1. -/
def normCDF : ℝ → ℝ := fun x => ProbabilityTheory.cdf (ProbabilityTheory.gaussianReal 0 1) x

/-- Modelled from the external library scipy: stats.norm.ppf with loc 0 and
scale 1, the quantile function of the standard normal distribution, taken as
the generalized inverse of its cumulative distribution function. -/
def norm_ppf (q : ℝ) : ℝ := sInf {x : ℝ | q ≤ normCDF x}

/-- Standard normal quantile at the service level, as in the notebook. -/
def Za : ℝ := norm_ppf alpha

/-- Parameters of the model builder.  The notebook hard-codes these as module
level constants; the concrete instantiation P0 below carries exactly the
notebook values, while claims about parameter variation quantify over this
structure. -/
structure Params where
  V : ℕ
  K : ℕ
  T : ℕ
  m : ℕ
  c : ℝ
  h : ℝ
  p : ℝ
  l : ℝ
  r : ℝ
  f : ℝ
  C : ℝ
  alpha : ℝ
  mu : ℝ
  lambda_ : ℝ
  y : ℝ
  gamma : ℝ
  beta : ℝ
  s_ : ℝ
  d_mu : ℕ → ℕ → ℝ
  a : ℕ → ℕ → ℝ

/-- Python range over all nodes. -/
def range_i (P : Params) : Finset ℕ := Finset.range P.V

/-- Python range over customers 1..V-1. -/
def range_i_ (P : Params) : Finset ℕ := Finset.Ico 1 P.V

/-- Python range over vehicles 1..K. -/
def range_k (P : Params) : Finset ℕ := Finset.Ico 1 (P.K + 1)

/-- Python range over periods 1..T. -/
def range_t (P : Params) : Finset ℕ := Finset.Ico 1 (P.T + 1)

/-- Right-hand side of constraint 21 as computed in the notebook:
cumulative mean demand plus the square root of the cumulative sum of squared
mean demands, times the coefficient Cc, times the normal quantile za. -/
def rhs21 (d : ℕ → ℕ → ℝ) (Cc za : ℝ) (i t : ℕ) : ℝ :=
  (∑ s ∈ Finset.Ico 1 (t + 1), d i s) +
    Real.sqrt (∑ s ∈ Finset.Ico 1 (t + 1), (d i s) ^ 2) * Cc * za

/-- The notebook array right_of_const_21: a V by T+1 array of zeros whose
entries for customers 1..V-1 and periods 1..T are filled with the chance
constraint bound. -/
def right_of_const_21 : ℕ → ℕ → ℝ := fun i t =>
  if i ∈ Finset.Ico 1 V ∧ t ∈ Finset.Ico 1 (T + 1) then rhs21 d_mu C Za i t else 0

/-- An assignment of values to all decision variable families of the model. -/
structure Asg where
  X : ℕ → ℕ → ℕ → ℕ → ℝ
  F : ℕ → ℕ → ℕ → ℕ → ℝ
  I : ℕ → ℕ → ℝ
  Ip : ℕ → ℕ → ℝ
  W : ℕ → ℕ → ℝ
  Q : ℕ → ℕ → ℕ → ℝ

/-- The assignment with every variable equal to zero. -/
def zeroAsg : Asg :=
  ⟨fun _ _ _ _ => 0, fun _ _ _ _ => 0, fun _ _ => 0, fun _ _ => 0,
   fun _ _ => 0, fun _ _ _ => 0⟩

/-- Variable declaration bounds: X is binary, F, Ip, W and Q have lower
bound zero, as declared with pulp.LpVariable.dicts in the notebook. -/
def varBounds (P : Params) (σ : Asg) : Prop :=
  (∀ i ∈ range_i P, ∀ j ∈ range_i P, ∀ k ∈ range_k P, ∀ t ∈ range_t P,
      σ.X i j k t = 0 ∨ σ.X i j k t = 1) ∧
  (∀ i ∈ range_i P, ∀ j ∈ range_i P, ∀ k ∈ range_k P, ∀ t ∈ range_t P,
      0 ≤ σ.F i j k t) ∧
  (∀ i ∈ range_i_ P, ∀ t ∈ range_t P, 0 ≤ σ.Ip i t ∧ 0 ≤ σ.W i t) ∧
  (∀ i ∈ range_i_ P, ∀ k ∈ range_k P, ∀ t ∈ range_t P, 0 ≤ σ.Q i k t)

/-- Structural diagonal constraints added right after variable declaration:
X and F vanish whenever i equals j. -/
def diagZero (P : Params) (σ : Asg) : Prop :=
  ∀ t ∈ range_t P, ∀ k ∈ range_k P, ∀ j ∈ range_i P, ∀ i ∈ range_i P,
    i = j → σ.X i j k t = 0 ∧ σ.F i j k t = 0

/-- Inventory cost term of the objective, as summed in the notebook. -/
def inventory_cost (P : Params) (σ : Asg) : ℝ :=
  ∑ i ∈ range_i_ P, ∑ t ∈ range_t P, σ.Ip i t * P.h

/-- Waste cost term of the objective: waste is only charged for periods
from m through T. -/
def waste_cost (P : Params) (σ : Asg) : ℝ :=
  ∑ i ∈ range_i_ P, ∑ t ∈ Finset.Ico P.m (P.T + 1), σ.W i t * P.p

/-- Fuel cost term of the objective, the physics based per-edge fuel
consumption model of the notebook; diagonal summands contribute zero. -/
def fuel_cost (P : Params) (σ : Asg) : ℝ :=
  ∑ t ∈ range_t P, ∑ k ∈ range_k P, ∑ j ∈ range_i P, ∑ i ∈ range_i P,
    if i ≠ j then
      P.lambda_ * (P.y * (P.a i j) * σ.X i j k t
        + P.gamma * P.beta * P.a i j * P.f ^ 2 * σ.X i j k t
        + P.gamma * P.s_ * (P.mu * σ.X i j k t + σ.F i j k t) * P.a i j) * P.l
    else 0

/-- Driver cost term of the objective; diagonal summands contribute zero. -/
def driver_cost (P : Params) (σ : Asg) : ℝ :=
  ∑ t ∈ range_t P, ∑ k ∈ range_k P, ∑ j ∈ range_i P, ∑ i ∈ range_i P,
    if i ≠ j then (P.a i j / P.f) * σ.X i j k t * P.r else 0

/-- The minimization objective: sum of the four cost terms. -/
def objective (P : Params) (σ : Asg) : ℝ :=
  inventory_cost P σ + waste_cost P σ + fuel_cost P σ + driver_cost P σ

/-- Constraint family 2 of the notebook: expected inventory balance for
every period and customer. -/
def constraint2 (P : Params) (σ : Asg) : Prop :=
  ∀ t ∈ range_t P, ∀ i ∈ range_i_ P,
    σ.I i t = (∑ s ∈ Finset.Ico 1 (t + 1), ∑ k ∈ range_k P, σ.Q i k s)
      - ∑ s ∈ Finset.Ico 1 t, (P.d_mu i s + σ.W i s)

/-- Constraint family 3 of the notebook: Ip dominates I. -/
def constraint3 (P : Params) (σ : Asg) : Prop :=
  ∀ t ∈ range_t P, ∀ i ∈ range_i_ P, σ.Ip i t ≥ σ.I i t

/-- Constraint families 4 and 5 of the notebook: expected spoilage.  For
periods at least the shelf life m a lower bound on W is added; for earlier
periods W is constrained to zero. -/
def constraint45 (P : Params) (σ : Asg) : Prop :=
  ∀ t ∈ range_t P, ∀ i ∈ range_i_ P,
    (P.m ≤ t → σ.W i t ≥ σ.I i (t - P.m + 1)
        - (∑ x ∈ Finset.Ico (t - P.m + 2) (t + 1), P.d_mu i x)
        - ∑ x ∈ Finset.Ico (t - P.m + 2) t, σ.W i x) ∧
    (t < P.m → σ.W i t = 0)

/-- Constraint family 7 of the notebook: at every customer the number of
arriving vehicles equals the number of leaving vehicles. -/
def constraint7 (P : Params) (σ : Asg) : Prop :=
  ∀ t ∈ range_t P, ∀ k ∈ range_k P, ∀ j ∈ range_i_ P,
    (∑ i ∈ range_i P, if i ≠ j then σ.X i j k t else 0)
      = ∑ i ∈ range_i P, if i ≠ j then σ.X j i k t else 0

/-- Constraint family 8 of the notebook: each vehicle leaves each node at
most once per period. -/
def constraint8 (P : Params) (σ : Asg) : Prop :=
  ∀ t ∈ range_t P, ∀ k ∈ range_k P, ∀ i ∈ range_i P,
    (∑ j ∈ range_i P, if i ≠ j then σ.X i j k t else 0) ≤ 1

/-- Constraint family 9 of the notebook: load conservation with delivery. -/
def constraint9 (P : Params) (σ : Asg) : Prop :=
  ∀ t ∈ range_t P, ∀ k ∈ range_k P, ∀ i ∈ range_i_ P,
    (∑ j ∈ range_i P, if i ≠ j then σ.F i j k t else 0)
      = (∑ j ∈ range_i P, if i ≠ j then σ.F j i k t else 0) - σ.Q i k t

/-- Constraint family 10 of the notebook: capacity coupling, with the load
of edge (i, j) bounded through the route indicator of edge (j, i). -/
def constraint10 (P : Params) (σ : Asg) : Prop :=
  ∀ t ∈ range_t P, ∀ k ∈ range_k P, ∀ i ∈ range_i P, ∀ j ∈ range_i P,
    i ≠ j → σ.F i j k t ≤ P.c * σ.X j i k t

/-- Constraint family 21 of the notebook: service level chance constraint. -/
def constraint21 (P : Params) (σ : Asg) : Prop :=
  ∀ t ∈ range_t P, ∀ i ∈ range_i_ P,
    (∑ s ∈ Finset.Ico 1 (t + 1), ∑ k ∈ range_k P, σ.Q i k s)
      - (∑ s ∈ Finset.Ico 1 t, σ.W i s)
      ≥ rhs21 P.d_mu P.C (norm_ppf P.alpha) i t

/-- A feasible solution of the built model satisfies the variable bounds and
every constraint family added to the pulp problem. -/
def feasible (P : Params) (σ : Asg) : Prop :=
  varBounds P σ ∧ diagZero P σ ∧ constraint2 P σ ∧ constraint3 P σ ∧
  constraint45 P σ ∧ constraint7 P σ ∧ constraint8 P σ ∧ constraint9 P σ ∧
  constraint10 P σ ∧ constraint21 P σ

/-- The concrete parameters of the notebook. -/
def P0 : Params :=
  ⟨V, K, T, m, c, h, p, l, r, f, C, alpha, mu, lambda_, y, gamma, beta, s_,
   d_mu, a⟩

/-- In-degree of node n for vehicle k in period t, self-loops excluded. -/
def indeg (P : Params) (σ : Asg) (k t n : ℕ) : ℝ :=
  ∑ i ∈ range_i P, if i ≠ n then σ.X i n k t else 0

/-- Out-degree of node n for vehicle k in period t, self-loops excluded. -/
def outdeg (P : Params) (σ : Asg) (k t n : ℕ) : ℝ :=
  ∑ i ∈ range_i P, if i ≠ n then σ.X n i k t else 0

/-- Transcribed from the spec wording: the chance constraint bound written
with closed summation ranges and the quantile factor in front. -/
def spec_rhs (i t : ℕ) : ℝ :=
  (∑ s ∈ Finset.Icc 1 t, d_mu i s) +
    Za * C * Real.sqrt (∑ s ∈ Finset.Icc 1 t, (d_mu i s) ^ 2)

/-- Transcribed from the spec wording: the service level constraint family,
with closed summation ranges. -/
def spec_con21 (σ : Asg) : Prop :=
  ∀ t ∈ Finset.Icc 1 T, ∀ i ∈ Finset.Icc 1 (V - 1),
    (∑ s ∈ Finset.Icc 1 t, ∑ k ∈ Finset.Icc 1 K, σ.Q i k s)
      - (∑ s ∈ Finset.Icc 1 (t - 1), σ.W i s) ≥ right_of_const_21 i t

/-- Transcribed from the spec wording: the spoilage constraint family, with
closed summation ranges. -/
def spec_con45 (σ : Asg) : Prop :=
  ∀ t ∈ Finset.Icc 1 T, ∀ i ∈ Finset.Icc 1 (V - 1),
    (t < m → σ.W i t = 0) ∧
    (m ≤ t → σ.W i t ≥ σ.I i (t - m + 1)
        - (∑ x ∈ Finset.Icc (t - m + 2) t, d_mu i x)
        - ∑ x ∈ Finset.Icc (t - m + 2) (t - 1), σ.W i x)

/-- Transcribed from the spec wording: the inventory balance family, with
closed summation ranges. -/
def spec_con2 (σ : Asg) : Prop :=
  ∀ t ∈ Finset.Icc 1 T, ∀ i ∈ Finset.Icc 1 (V - 1),
    σ.I i t = (∑ s ∈ Finset.Icc 1 t, ∑ k ∈ Finset.Icc 1 K, σ.Q i k s)
      - ∑ s ∈ Finset.Icc 1 (t - 1), (d_mu i s + σ.W i s)

/-- Transcribed from the spec wording: the capacity coupling family, with
quantifiers in the order of the claim. -/
def spec_con10 (σ : Asg) : Prop :=
  ∀ i ∈ Finset.range V, ∀ j ∈ Finset.range V, ∀ k ∈ Finset.Icc 1 K,
    ∀ t ∈ Finset.Icc 1 T, i ≠ j → σ.F i j k t ≤ c * σ.X j i k t

/-- Modelled from the spec: the raw inputs held by the Parameter Store.
The notebook has no such component; it hard-codes all parameters as module
level constants without validation, so the store and its validation are
modelled from spec sections 4.1 and 7.  Scalar inputs are rationals so that
validation is decidable. -/
structure RawParams where
  V : ℕ
  K : ℕ
  T : ℕ
  m : ℕ
  c : ℚ
  h : ℚ
  p : ℚ
  l : ℚ
  r : ℚ
  f : ℚ
  C : ℚ
  alpha : ℚ
  xi : ℚ
  kappa : ℚ
  psi : ℚ
  k_e : ℚ
  N_e : ℚ
  V_e : ℚ
  rho : ℚ
  A_e : ℚ
  mu : ℚ
  g : ℚ
  phi : ℚ
  C_d : ℚ
  C_r : ℚ
  epsilon : ℚ
  varpi : ℚ
  d : List (List ℚ)
  dist : List (List ℚ)

/-- Modelled from the spec: Parameter Store validation.  All costs and
physical constants non-negative, service level strictly between 0 and 1,
distance matrix square with dimension V, demand table with V rows and T+1
columns. -/
def validate (R : RawParams) : Bool :=
  decide (0 ≤ R.c) && decide (0 ≤ R.h) && decide (0 ≤ R.p) &&
  decide (0 ≤ R.l) && decide (0 ≤ R.r) && decide (0 ≤ R.f) &&
  decide (0 ≤ R.C) && decide (0 ≤ R.xi) && decide (0 ≤ R.kappa) &&
  decide (0 ≤ R.psi) && decide (0 ≤ R.k_e) && decide (0 ≤ R.N_e) &&
  decide (0 ≤ R.V_e) && decide (0 ≤ R.rho) && decide (0 ≤ R.A_e) &&
  decide (0 ≤ R.mu) && decide (0 ≤ R.g) && decide (0 ≤ R.phi) &&
  decide (0 ≤ R.C_d) && decide (0 ≤ R.C_r) && decide (0 ≤ R.epsilon) &&
  decide (0 ≤ R.varpi) && decide (0 < R.alpha) && decide (R.alpha < 1) &&
  (R.dist.length == R.V) && R.dist.all (fun row => row.length == R.V) &&
  (R.d.length == R.V) && R.d.all (fun row => row.length == R.T + 1)

/-- Modelled from the spec: the error raised by the Parameter Store. -/
inductive BuildError where
  | configurationError
deriving DecidableEq

/-- Modelled from the spec: conversion of validated raw inputs into model
parameters, computing the derived coefficients exactly as the notebook
computes them from the physical constants. -/
def toParams (R : RawParams) : Params :=
  ⟨R.V, R.K, R.T, R.m, (R.c : ℝ), (R.h : ℝ), (R.p : ℝ), (R.l : ℝ),
   (R.r : ℝ), (R.f : ℝ), (R.C : ℝ), (R.alpha : ℝ), (R.mu : ℝ),
   (R.xi : ℝ) / ((R.kappa : ℝ) * (R.psi : ℝ)),
   (R.k_e : ℝ) * (R.N_e : ℝ) * (R.V_e : ℝ),
   1 / (1000 * (R.epsilon : ℝ) * (R.varpi : ℝ)),
   0.5 * (R.C_d : ℝ) * (R.A_e : ℝ) * (R.rho : ℝ),
   (R.g : ℝ) * Real.sin (R.phi : ℝ) + (R.g : ℝ) * (R.C_r : ℝ) * Real.cos (R.phi : ℝ),
   fun i s => (((R.d.getD i []).getD s 0 : ℚ) : ℝ),
   fun i j => (((R.dist.getD i []).getD j 0 : ℚ) : ℝ)⟩

/-- Modelled from the spec: the model object handed to the external solver,
packaged as the feasible set together with the objective. -/
def buildModel (R : RawParams) : (Asg → Prop) × (Asg → ℝ) :=
  (feasible (toParams R), objective (toParams R))

/-- Modelled from the spec: the build pipeline validates first and
constructs a model only when validation succeeds. -/
def buildPipeline (R : RawParams) : Except BuildError ((Asg → Prop) × (Asg → ℝ)) :=
  if validate R then Except.ok (buildModel R) else
    Except.error BuildError.configurationError

/-- A malformed input: the service level is 2, outside the interval (0,1);
all other fields are well formed. -/
def badR : RawParams :=
  ⟨1, 1, 1, 1, 0, 0, 0, 0, 0, 0, 0, 2, 0, 0, 0, 0, 0, 0, 0, 0, 0, 0, 0, 0,
   0, 0, 0, [[0, 0]], [[0]]⟩

/-- Modelled from the spec: the status returned by the external solver. -/
inductive SolverStatus where
  | optimal
  | feasible
  | infeasible
  | unbounded
  | timeLimitReached
deriving DecidableEq

/-- Modelled from the spec: a status carries a usable variable assignment
exactly when it is optimal or feasible. -/
def hasSolution : SolverStatus → Bool
  | SolverStatus.optimal => true
  | SolverStatus.feasible => true
  | _ => false

/-- Modelled from the spec: the error raised by the Solution Reporter. -/
inductive ReportError where
  | noSolutionError
deriving DecidableEq

/-- Modelled from the spec: the report produced by the Solution Reporter,
with the total cost, the four cost components and the selected route
edges. -/
structure Report where
  total : ℝ
  inventory : ℝ
  waste : ℝ
  fuel : ℝ
  driver : ℝ
  routes : Set (ℕ × ℕ × ℕ × ℕ)

/-- Route edges selected by a solution: tuples of period, vehicle, origin
and destination whose route indicator is 1, as listed by the notebook. -/
def selectedRoutes (P : Params) (σ : Asg) : Set (ℕ × ℕ × ℕ × ℕ) :=
  {q | q.1 ∈ range_t P ∧ q.2.1 ∈ range_k P ∧ q.2.2.1 ∈ range_i P ∧
       q.2.2.2 ∈ range_i P ∧ σ.X q.2.2.1 q.2.2.2 q.2.1 q.1 = 1}

/-- Modelled from the spec: the Solution Reporter.  It recomputes the cost
breakdown and extracts the selected routes when the solver status carries a
solution, and fails with noSolutionError otherwise. -/
def reportSolution (P : Params) (st : SolverStatus) (σ : Asg) :
    Except ReportError Report :=
  if hasSolution st then
    Except.ok ⟨objective P σ, inventory_cost P σ, waste_cost P σ,
      fuel_cost P σ, driver_cost P σ, selectedRoutes P σ⟩
  else Except.error ReportError.noSolutionError

end

section Lemmas

lemma P0_V : P0.V = V := rfl

lemma P0_K : P0.K = K := rfl

lemma P0_T : P0.T = T := rfl

lemma P0_m : P0.m = m := rfl

lemma P0_c : P0.c = c := rfl

lemma P0_h : P0.h = h := rfl

lemma P0_p : P0.p = p := rfl

lemma P0_l : P0.l = l := rfl

lemma P0_r : P0.r = r := rfl

lemma P0_f : P0.f = f := rfl

lemma P0_mu : P0.mu = mu := rfl

lemma P0_lambda : P0.lambda_ = lambda_ := rfl

lemma P0_y : P0.y = y := rfl

lemma P0_gamma : P0.gamma = gamma := rfl

lemma P0_beta : P0.beta = beta := rfl

lemma P0_s : P0.s_ = s_ := rfl

lemma P0_dmu : P0.d_mu = d_mu := rfl

lemma P0_a : P0.a = a := rfl

lemma range_t_P0 : range_t P0 = Finset.Icc 1 T := Nat.Ico_succ_right 1 T

lemma range_k_P0 : range_k P0 = Finset.Icc 1 K := Nat.Ico_succ_right 1 K

lemma range_i_P0 : range_i P0 = Finset.range V := rfl

lemma range_i__P0 : range_i_ P0 = Finset.Icc 1 (V - 1) := by decide

lemma Ico_eq_Icc_sub_one (b : ℕ) {t : ℕ} (ht : 1 ≤ t) :
    Finset.Ico b t = Finset.Icc b (t - 1) := by
  obtain ⟨n, rfl⟩ : ∃ n, t = n + 1 := ⟨t - 1, by omega⟩
  simp [Nat.Ico_succ_right]

lemma right_of_const_21_in_range {i t : ℕ} (hi : i ∈ Finset.Icc 1 (V - 1))
    (ht : t ∈ Finset.Icc 1 T) :
    right_of_const_21 i t = rhs21 d_mu C Za i t := by
  apply if_pos
  simp only [Finset.mem_Icc, Finset.mem_Ico] at *
  omega

lemma norm_ppf_mono {q1 q2 : ℝ} (hq0 : 0 < q1) (hq12 : q1 ≤ q2)
    (hq1 : q2 < 1) : norm_ppf q1 ≤ norm_ppf q2 := by
  have hne : {x : ℝ | q2 ≤ normCDF x}.Nonempty := by
    have ht := ProbabilityTheory.tendsto_cdf_atTop
      (ProbabilityTheory.gaussianReal 0 1)
    have h2 : ∀ᶠ x : ℝ in Filter.atTop, q2 ≤ normCDF x :=
      ht.eventually (eventually_ge_nhds hq1)
    exact h2.exists
  have hbb : BddBelow {x : ℝ | q1 ≤ normCDF x} := by
    have hb0 := ProbabilityTheory.tendsto_cdf_atBot
      (ProbabilityTheory.gaussianReal 0 1)
    have h2 : ∀ᶠ x : ℝ in Filter.atBot, normCDF x < q1 :=
      hb0.eventually (eventually_lt_nhds hq0)
    obtain ⟨b, hb⟩ := Filter.eventually_atBot.mp h2
    refine ⟨b, fun x hx => ?_⟩
    by_contra hbx
    push_neg at hbx
    exact absurd hx (not_le.mpr (hb x hbx.le))
  exact csInf_le_csInf hbb hne fun x hx => le_trans hq12 hx

lemma sum_indeg_eq_sum_outdeg (P : Params) (σ : Asg) (k t : ℕ) :
    ∑ n ∈ range_i P, indeg P σ k t n = ∑ n ∈ range_i P, outdeg P σ k t n := by
  unfold indeg outdeg
  rw [Finset.sum_comm]
  refine Finset.sum_congr rfl fun i _ => Finset.sum_congr rfl fun n _ => ?_
  exact if_congr ne_comm rfl rfl

lemma varBounds_zeroAsg : varBounds P0 zeroAsg := by
  refine ⟨?_, ?_, ?_, ?_⟩ <;> intros <;> simp [zeroAsg]

lemma diagZero_zeroAsg : diagZero P0 zeroAsg := by
  intro t _ k _ j _ i _ _
  simp [zeroAsg]

lemma constraint7_zeroAsg : constraint7 P0 zeroAsg := by
  intro t _ k _ j _
  simp [zeroAsg]

lemma constraint10_zeroAsg : constraint10 P0 zeroAsg := by
  intro t _ k _ i _ j _ _
  simp [zeroAsg]

end Lemmas

/-- C1: for every customer i and period t the chance constraint bound equals
the cumulative mean demand plus Za times C times the square root of the
cumulative sum of squared mean demands, and the service level constraint
family of the built model states, for each (i, t), that cumulative delivered
quantity minus cumulative waste is at least that bound. -/
theorem claim_C1 :
    (∀ i ∈ Finset.Icc 1 (V - 1), ∀ t ∈ Finset.Icc 1 T,
      right_of_const_21 i t = spec_rhs i t) ∧
    (∀ σ : Asg, constraint21 P0 σ ↔ spec_con21 σ) := by
  constructor
  · intro i hi t ht
    rw [right_of_const_21_in_range hi ht]
    unfold rhs21 spec_rhs
    rw [Nat.Ico_succ_right 1 t]
    ring
  · intro σ
    unfold constraint21 spec_con21
    rw [range_t_P0, range_i__P0]
    refine forall₂_congr fun t ht => forall₂_congr fun i hi => ?_
    have h1t : 1 ≤ t := (Finset.mem_Icc.mp ht).1
    rw [right_of_const_21_in_range hi ht, range_k_P0, Nat.Ico_succ_right 1 t,
      Ico_eq_Icc_sub_one 1 h1t]
    exact Iff.rfl

/-- Witness for C1 at customer 2 and period 1, and at the zero assignment. -/
theorem claim_C1_witness :
    right_of_const_21 2 1 = spec_rhs 2 1 ∧
    (constraint21 P0 zeroAsg ↔ spec_con21 zeroAsg) :=
  ⟨claim_C1.1 2 (by decide) 1 (by decide), claim_C1.2 zeroAsg⟩

/-- C2: the spoilage family of the built model constrains W to zero for all
periods before the shelf life m, and for periods from m on it adds exactly
the lower bound of the claim, with the summation ranges t-m+2..t for demand
and t-m+2..t-1 for waste. -/
theorem claim_C2 (σ : Asg) : constraint45 P0 σ ↔ spec_con45 σ := by
  unfold constraint45 spec_con45
  rw [range_t_P0, range_i__P0]
  refine forall₂_congr fun t ht => forall₂_congr fun i hi => ?_
  have h1t : 1 ≤ t := (Finset.mem_Icc.mp ht).1
  simp only [P0_m, P0_dmu]
  rw [Nat.Ico_succ_right (t - m + 2) t, Ico_eq_Icc_sub_one (t - m + 2) h1t]
  exact and_comm

/-- Witness for C2 at the zero assignment. -/
theorem claim_C2_witness : constraint45 P0 zeroAsg ↔ spec_con45 zeroAsg :=
  claim_C2 zeroAsg

/-- C3: the inventory balance family of the built model is exactly the claim
equality, and at the boundary period 1 it reduces to I equal to the sum of
the deliveries of period 1. -/
theorem claim_C3 (σ : Asg) :
    (constraint2 P0 σ ↔ spec_con2 σ) ∧
    (constraint2 P0 σ → ∀ i ∈ Finset.Icc 1 (V - 1),
      σ.I i 1 = ∑ k ∈ Finset.Icc 1 K, σ.Q i k 1) := by
  constructor
  · unfold constraint2 spec_con2
    rw [range_t_P0, range_i__P0]
    refine forall₂_congr fun t ht => forall₂_congr fun i hi => ?_
    have h1t : 1 ≤ t := (Finset.mem_Icc.mp ht).1
    simp only [P0_dmu]
    rw [range_k_P0, Nat.Ico_succ_right 1 t, Ico_eq_Icc_sub_one 1 h1t]
  · intro H i hi
    have h1 : (1 : ℕ) ∈ range_t P0 := by decide
    have hi' : i ∈ range_i_ P0 := by rw [range_i__P0]; exact hi
    have := H 1 h1 i hi'
    rw [show Finset.Ico 1 (1 + 1) = {1} from by decide, Finset.Ico_self] at this
    simpa [range_k_P0] using this

/-- Witness for C3 at the zero assignment. -/
theorem claim_C3_witness :
    (constraint2 P0 zeroAsg ↔ spec_con2 zeroAsg) ∧
    (constraint2 P0 zeroAsg → ∀ i ∈ Finset.Icc 1 (V - 1),
      zeroAsg.I i 1 = ∑ k ∈ Finset.Icc 1 K, zeroAsg.Q i k 1) :=
  claim_C3 zeroAsg

/-- C4: the capacity coupling family of the built model is exactly the claim
inequality, bounding the load of edge (i, j) through the route indicator of
the reversed edge (j, i); moreover whenever the variable bounds, the
diagonal constraints and the coupling hold, which is the case in every
feasible solution, no load variable exceeds the capacity c and the load
vanishes whenever the reversed route indicator vanishes. -/
theorem claim_C4 (σ : Asg) :
    (constraint10 P0 σ ↔ spec_con10 σ) ∧
    (varBounds P0 σ → diagZero P0 σ → constraint10 P0 σ →
      ∀ i ∈ Finset.range V, ∀ j ∈ Finset.range V, ∀ k ∈ Finset.Icc 1 K,
        ∀ t ∈ Finset.Icc 1 T,
          σ.F i j k t ≤ c ∧ (σ.X j i k t = 0 → σ.F i j k t = 0)) := by
  have hkt : ∀ k t : ℕ, k ∈ Finset.Icc 1 K → t ∈ Finset.Icc 1 T →
      k ∈ range_k P0 ∧ t ∈ range_t P0 := by
    intro k t hk ht
    rw [range_k_P0, range_t_P0]
    exact ⟨hk, ht⟩
  constructor
  · constructor
    · intro H i hi j hj k hk t ht hij
      obtain ⟨hk', ht'⟩ := hkt k t hk ht
      exact H t ht' k hk' i hi j hj hij
    · intro H t ht k hk i hi j hj hij
      rw [range_t_P0] at ht
      rw [range_k_P0] at hk
      exact H i hi j hj k hk t ht hij
  · intro hb hd h10 i hi j hj k hk t ht
    obtain ⟨hk', ht'⟩ := hkt k t hk ht
    have hc : (0 : ℝ) ≤ c := by norm_num [c]
    by_cases hij : i = j
    · obtain ⟨-, hF0⟩ := hd t ht' k hk' j hj i hi hij
      exact ⟨by rw [hF0]; exact hc, fun _ => hF0⟩
    · have h1 := h10 t ht' k hk' i hi j hj hij
      rw [P0_c] at h1
      have hF : 0 ≤ σ.F i j k t := hb.2.1 i hi j hj k hk' t ht'
      constructor
      · rcases hb.1 j hj i hi k hk' t ht' with h0 | h1'
        · rw [h0, mul_zero] at h1
          linarith
        · rw [h1', mul_one] at h1
          exact h1
      · intro hX0
        rw [hX0, mul_zero] at h1
        linarith

/-- Witness for C4 at the zero assignment, edge (0, 1), vehicle 1,
period 1. -/
theorem claim_C4_witness :
    zeroAsg.F 0 1 1 1 ≤ c ∧ (zeroAsg.X 1 0 1 1 = 0 → zeroAsg.F 0 1 1 1 = 0) :=
  (claim_C4 zeroAsg).2 varBounds_zeroAsg diagZero_zeroAsg constraint10_zeroAsg
    0 (by decide) 1 (by decide) 1 (by decide) 1 (by decide)

/-- C5: with the demand table and the coefficient C of the notebook held
fixed, the chance constraint bound computed at a larger service level in
(0,1) is at least the one computed at a smaller one, for every customer and
period. -/
theorem claim_C5 (α1 α2 : ℝ) (ha0 : 0 < α1) (ha12 : α1 < α2) (ha1 : α2 < 1)
    (i t : ℕ) :
    rhs21 d_mu C (norm_ppf α1) i t ≤ rhs21 d_mu C (norm_ppf α2) i t := by
  unfold rhs21
  have hz := norm_ppf_mono ha0 ha12.le ha1
  have hs : 0 ≤ Real.sqrt (∑ s ∈ Finset.Ico 1 (t + 1), (d_mu i s) ^ 2) * C :=
    mul_nonneg (Real.sqrt_nonneg _) (by norm_num [C])
  exact add_le_add_left (mul_le_mul_of_nonneg_left hz hs) _

/-- Witness for C5 at service levels one half and three quarters, customer 1,
period 1. -/
theorem claim_C5_witness :
    rhs21 d_mu C (norm_ppf (1 / 2)) 1 1 ≤ rhs21 d_mu C (norm_ppf (3 / 4)) 1 1 :=
  claim_C5 (1 / 2) (3 / 4) (by norm_num) (by norm_num) (by norm_num) 1 1

/-- C6: the minimization objective of the built model is exactly the sum of
the four cost terms of the claim, with the waste sum starting at the shelf
life m and with all diagonal summands excluded. -/
theorem claim_C6 (σ : Asg) :
    objective P0 σ =
      h * (∑ i ∈ Finset.Icc 1 (V - 1), ∑ t ∈ Finset.Icc 1 T, σ.Ip i t)
      + p * (∑ i ∈ Finset.Icc 1 (V - 1), ∑ t ∈ Finset.Icc m T, σ.W i t)
      + l * (∑ t ∈ Finset.Icc 1 T, ∑ k ∈ Finset.Icc 1 K, ∑ j ∈ Finset.range V,
          ∑ i ∈ (Finset.range V).filter (fun i => i ≠ j),
            lambda_ * (y * a i j * σ.X i j k t
              + gamma * beta * a i j * f ^ 2 * σ.X i j k t
              + gamma * s_ * (mu * σ.X i j k t + σ.F i j k t) * a i j))
      + r * (∑ t ∈ Finset.Icc 1 T, ∑ k ∈ Finset.Icc 1 K, ∑ j ∈ Finset.range V,
          ∑ i ∈ (Finset.range V).filter (fun i => i ≠ j),
            (a i j / f) * σ.X i j k t) := by
  unfold objective inventory_cost waste_cost fuel_cost driver_cost
  simp only [range_t_P0, range_k_P0, range_i_P0, range_i__P0, P0_T, P0_m,
    P0_h, P0_p, P0_l, P0_r, P0_f, P0_mu, P0_lambda, P0_y, P0_gamma, P0_beta,
    P0_s, P0_a, Nat.Ico_succ_right]
  have e1 : h * (∑ i ∈ Finset.Icc 1 (V - 1), ∑ t ∈ Finset.Icc 1 T, σ.Ip i t)
      = ∑ i ∈ Finset.Icc 1 (V - 1), ∑ t ∈ Finset.Icc 1 T, σ.Ip i t * h := by
    simp only [Finset.mul_sum]
    exact Finset.sum_congr rfl fun i _ =>
      Finset.sum_congr rfl fun t _ => mul_comm _ _
  have e2 : p * (∑ i ∈ Finset.Icc 1 (V - 1), ∑ t ∈ Finset.Icc m T, σ.W i t)
      = ∑ i ∈ Finset.Icc 1 (V - 1), ∑ t ∈ Finset.Icc m T, σ.W i t * p := by
    simp only [Finset.mul_sum]
    exact Finset.sum_congr rfl fun i _ =>
      Finset.sum_congr rfl fun t _ => mul_comm _ _
  have e3 : l * (∑ t ∈ Finset.Icc 1 T, ∑ k ∈ Finset.Icc 1 K,
        ∑ j ∈ Finset.range V, ∑ i ∈ (Finset.range V).filter (fun i => i ≠ j),
          lambda_ * (y * a i j * σ.X i j k t
            + gamma * beta * a i j * f ^ 2 * σ.X i j k t
            + gamma * s_ * (mu * σ.X i j k t + σ.F i j k t) * a i j))
      = ∑ t ∈ Finset.Icc 1 T, ∑ k ∈ Finset.Icc 1 K, ∑ j ∈ Finset.range V,
          ∑ i ∈ Finset.range V,
            if i ≠ j then
              lambda_ * (y * a i j * σ.X i j k t
                + gamma * beta * a i j * f ^ 2 * σ.X i j k t
                + gamma * s_ * (mu * σ.X i j k t + σ.F i j k t) * a i j) * l
            else 0 := by
    simp only [Finset.sum_filter, Finset.mul_sum]
    refine Finset.sum_congr rfl fun t _ => Finset.sum_congr rfl fun k _ =>
      Finset.sum_congr rfl fun j _ => Finset.sum_congr rfl fun i _ => ?_
    split <;> ring
  have e4 : r * (∑ t ∈ Finset.Icc 1 T, ∑ k ∈ Finset.Icc 1 K,
        ∑ j ∈ Finset.range V, ∑ i ∈ (Finset.range V).filter (fun i => i ≠ j),
          (a i j / f) * σ.X i j k t)
      = ∑ t ∈ Finset.Icc 1 T, ∑ k ∈ Finset.Icc 1 K, ∑ j ∈ Finset.range V,
          ∑ i ∈ Finset.range V,
            if i ≠ j then (a i j / f) * σ.X i j k t * r else 0 := by
    simp only [Finset.sum_filter, Finset.mul_sum]
    refine Finset.sum_congr rfl fun t _ => Finset.sum_congr rfl fun k _ =>
      Finset.sum_congr rfl fun j _ => Finset.sum_congr rfl fun i _ => ?_
    split <;> ring
  rw [e1, e2, e3, e4]

/-- Witness for C6 at the zero assignment. -/
theorem claim_C6_witness :
    objective P0 zeroAsg =
      h * (∑ i ∈ Finset.Icc 1 (V - 1), ∑ t ∈ Finset.Icc 1 T, zeroAsg.Ip i t)
      + p * (∑ i ∈ Finset.Icc 1 (V - 1), ∑ t ∈ Finset.Icc m T, zeroAsg.W i t)
      + l * (∑ t ∈ Finset.Icc 1 T, ∑ k ∈ Finset.Icc 1 K, ∑ j ∈ Finset.range V,
          ∑ i ∈ (Finset.range V).filter (fun i => i ≠ j),
            lambda_ * (y * a i j * zeroAsg.X i j k t
              + gamma * beta * a i j * f ^ 2 * zeroAsg.X i j k t
              + gamma * s_ * (mu * zeroAsg.X i j k t + zeroAsg.F i j k t) * a i j))
      + r * (∑ t ∈ Finset.Icc 1 T, ∑ k ∈ Finset.Icc 1 K, ∑ j ∈ Finset.range V,
          ∑ i ∈ (Finset.range V).filter (fun i => i ≠ j),
            (a i j / f) * zeroAsg.X i j k t) :=
  claim_C6 zeroAsg

/-- C7: the spec modelled Parameter Store validates before any model is
built; whenever validation fails the pipeline returns a ConfigurationError
and constructs no model. -/
theorem claim_C7 (R : RawParams) (hbad : validate R = false) :
    buildPipeline R = Except.error BuildError.configurationError ∧
    ∀ M, buildPipeline R ≠ Except.ok M := by
  have herr : buildPipeline R = Except.error BuildError.configurationError := by
    unfold buildPipeline
    rw [hbad]
    rfl
  refine ⟨herr, fun M hM => ?_⟩
  rw [herr] at hM
  exact Except.noConfusion hM

/-- Witness for C7 at the malformed input badR, whose service level is 2. -/
theorem claim_C7_witness :
    buildPipeline badR = Except.error BuildError.configurationError ∧
    ∀ M, buildPipeline badR ≠ Except.ok M :=
  claim_C7 badR (by decide)

/-- C8: the spec modelled Solution Reporter fails with NoSolutionError when
the solver status is not optimal or feasible, and produces a cost breakdown
and route listing only when the status carries a solution. -/
theorem claim_C8 (P : Params) (st : SolverStatus) (σ : Asg) :
    (hasSolution st = false →
      reportSolution P st σ = Except.error ReportError.noSolutionError) ∧
    ∀ rep : Report, reportSolution P st σ = Except.ok rep →
      hasSolution st = true ∧ rep.total = objective P σ ∧
      rep.inventory = inventory_cost P σ ∧ rep.waste = waste_cost P σ ∧
      rep.fuel = fuel_cost P σ ∧ rep.driver = driver_cost P σ ∧
      rep.routes = selectedRoutes P σ := by
  constructor
  · intro hf
    simp [reportSolution, hf]
  · intro rep hok
    by_cases hs : hasSolution st = true
    · unfold reportSolution at hok
      rw [if_pos hs] at hok
      have hrep := Except.ok.inj hok
      subst hrep
      exact ⟨hs, rfl, rfl, rfl, rfl, rfl, rfl⟩
    · rw [Bool.not_eq_true] at hs
      simp [reportSolution, hs] at hok

/-- Witness for C8: the reporter invoked on an infeasible status fails. -/
theorem claim_C8_witness :
    reportSolution P0 SolverStatus.infeasible zeroAsg =
      Except.error ReportError.noSolutionError :=
  (claim_C8 P0 SolverStatus.infeasible zeroAsg).1 rfl

/-- C9: under the flow conservation constraints of the built model, which
hold in every feasible solution, the in-degree equals the out-degree at
every node, the depot included: at customers this is the constraint itself,
at the depot it follows by summing the customer constraints. -/
theorem claim_C9 (σ : Asg) (h7 : constraint7 P0 σ) (k t n : ℕ)
    (hk : k ∈ range_k P0) (ht : t ∈ range_t P0) (hn : n ∈ range_i P0) :
    indeg P0 σ k t n = outdeg P0 σ k t n := by
  by_cases hcust : n ∈ range_i_ P0
  · exact h7 t ht k hk n hcust
  · have hn0 : n = 0 := by
      simp only [range_i, range_i_, Finset.mem_range, Finset.mem_Ico]
        at hn hcust
      omega
    subst hn0
    have hsplit : ∑ x ∈ range_i P0,
        (indeg P0 σ k t x - outdeg P0 σ k t x) = 0 := by
      rw [Finset.sum_sub_distrib, sum_indeg_eq_sum_outdeg, sub_self]
    rw [show range_i P0 = Finset.Ico 0 P0.V by rw [range_i, Finset.range_eq_Ico],
      Finset.sum_eq_sum_Ico_succ_bot (show 0 < P0.V by decide)] at hsplit
    have hzero : ∑ x ∈ Finset.Ico (0 + 1) P0.V,
        (indeg P0 σ k t x - outdeg P0 σ k t x) = 0 :=
      Finset.sum_eq_zero fun x hx => sub_eq_zero_of_eq (h7 t ht k hk x hx)
    rw [hzero, add_zero] at hsplit
    exact sub_eq_zero.mp hsplit

/-- Witness for C9 at the zero assignment, vehicle 1, period 1, depot. -/
theorem claim_C9_witness : indeg P0 zeroAsg 1 1 0 = outdeg P0 zeroAsg 1 1 0 :=
  claim_C9 zeroAsg constraint7_zeroAsg 1 1 0 (by decide) (by decide) (by decide)

/-- C10: the chance constraint bound computed by the notebook formula is
nondecreasing in the period index whenever the demand means of the customer
are non-negative and the product of the quantile and the coefficient is
non-negative. -/
theorem claim_C10 (d : ℕ → ℕ → ℝ) (Cc za : ℝ) (i t : ℕ)
    (hd : ∀ s, 0 ≤ d i s) (hza : 0 ≤ za * Cc) (ht1 : 1 ≤ t)
    (_ht2 : t ≤ T - 1) :
    rhs21 d Cc za i t ≤ rhs21 d Cc za i (t + 1) := by
  unfold rhs21
  have hCz : 0 ≤ Cc * za := by rw [mul_comm]; exact hza
  have hsum : (∑ s ∈ Finset.Ico 1 (t + 1), d i s)
      ≤ ∑ s ∈ Finset.Ico 1 (t + 1 + 1), d i s := by
    rw [Finset.sum_Ico_succ_top (by omega : 1 ≤ t + 1)]
    exact le_add_of_nonneg_right (hd (t + 1))
  have hsq : Real.sqrt (∑ s ∈ Finset.Ico 1 (t + 1), (d i s) ^ 2)
      ≤ Real.sqrt (∑ s ∈ Finset.Ico 1 (t + 1 + 1), (d i s) ^ 2) := by
    apply Real.sqrt_le_sqrt
    rw [Finset.sum_Ico_succ_top (by omega : 1 ≤ t + 1)]
    exact le_add_of_nonneg_right (sq_nonneg _)
  have h2 : Real.sqrt (∑ s ∈ Finset.Ico 1 (t + 1), (d i s) ^ 2) * Cc * za
      ≤ Real.sqrt (∑ s ∈ Finset.Ico 1 (t + 1 + 1), (d i s) ^ 2) * Cc * za := by
    rw [mul_assoc, mul_assoc]
    exact mul_le_mul_of_nonneg_right hsq hCz
  exact add_le_add hsum h2

/-- Witness for C10 at the notebook demand table, the notebook coefficient,
quantile value 1, customer 1, period 1. -/
theorem claim_C10_witness :
    rhs21 d_mu C 1 1 1 ≤ rhs21 d_mu C 1 1 (1 + 1) :=
  claim_C10 d_mu C 1 1 1 (fun s => Nat.cast_nonneg _) (by norm_num [C])
    (by decide) (by decide)

end IRP
